import Mathlib

/-!
Verification development for the llm-usage-analyzer repository.

Shallow embedding of the core components described in the specification:
the log record parser and usage aggregator (`src/packages/cli/src/parsers/claude.ts`),
the cost estimator and plan-fit classifier (`src/services/analysisService.ts`,
first authoritative copy, lines 1-215), the trend aggregator's per-report
cost (`src/services/trendService.ts`) and the shared pricing/plan constants
(`src/constants.ts`).

Modelling conventions:
* JavaScript numbers are modelled exactly: token counts as `Nat`, prices and
  costs as `ℚ` (the source only ever combines exact decimal constants with
  integer token counts, so rational arithmetic mirrors the intended real
  arithmetic; binary floating-point rounding error is not modelled).
* `Number.prototype.toFixed(2)` composed with `parseFloat` is modelled by
  `round2` (round half up to two decimals); `Math.round` by `round`.
* JavaScript objects used as string-keyed maps (`by_model`, the day map)
  are modelled as association lists in insertion order, matching the
  enumeration order of `Object.entries` for non-index string keys.
* `Array.prototype.sort` with a `localeCompare` comparator on ISO date
  strings is modelled by merge sort under the lexicographic string order.
* Fields of `UsageReport` that no verified component reads or that are
  caller-context tags (`provider`, `source`, `period`, `plan.type`) are
  omitted from the embedding, as is the progress-callback plumbing.
-/

namespace LLMUsage

/-- Per-model token totals, the values of the `by_model` record. -/
structure ModelTokens where
  input : Nat
  output : Nat
deriving Repr, DecidableEq

/-- A per-1M-token price entry `{input, output}` of a pricing table. -/
structure Pricing where
  input : ℚ
  output : ℚ
deriving Repr, DecidableEq

/-- One entry of `usage.messages.by_day`: `{date, count, input, output}`. -/
structure DayEntry where
  date : String
  count : Nat
  input : Nat
  output : Nat
deriving Repr, DecidableEq

/-- `usage.tokens` of a `UsageReport` (src/types.ts `TokenUsage`); `by_model`
is an association list in insertion order. -/
structure TokenUsage where
  input : Nat
  output : Nat
  cached : Nat
  by_model : List (String × ModelTokens)
deriving Repr, DecidableEq

/-- `usage.messages` of a `UsageReport`. -/
structure MessagesInfo where
  count : Nat
  by_day : List DayEntry
deriving Repr, DecidableEq

/-- `usage.sessions` of a `UsageReport`. -/
structure SessionsInfo where
  count : Nat
deriving Repr, DecidableEq

/-- The `plan` block of a `UsageReport` (the `type` tag is omitted: no
verified component reads it). -/
structure PlanInfo where
  name : String
  price_usd : ℚ
deriving Repr, DecidableEq

/-- The `usage` block of a `UsageReport`. -/
structure UsageBlock where
  tokens : TokenUsage
  messages : MessagesInfo
  sessions : SessionsInfo
deriving Repr, DecidableEq

/-- The canonical `UsageReport` (src/types.ts), restricted to the fields the
verified components read. -/
structure UsageReport where
  plan : PlanInfo
  usage : UsageBlock
deriving Repr, DecidableEq

/-- `parseFloat(x.toFixed(2))`: round half up to two decimal places
(exact-arithmetic model of the JavaScript idiom). -/
def round2 (x : ℚ) : ℚ := ((round (x * 100) : ℤ) : ℚ) / 100

/-- Pricing table local to src/services/analysisService.ts (lines 5-36,
the authoritative first copy), transcribed entry for entry. -/
def MODEL_PRICING : List (String × Pricing) := [
  ("claude-sonnet-4-20250514", ⟨3.0, 15.0⟩),
  ("claude-opus-4-20250514", ⟨15.0, 75.0⟩),
  ("claude-3-5-sonnet-20241022", ⟨3.0, 15.0⟩),
  ("claude-3-5-sonnet-20240620", ⟨3.0, 15.0⟩),
  ("claude-3-opus-20240229", ⟨15.0, 75.0⟩),
  ("claude-3-5-haiku-20241022", ⟨0.80, 4.0⟩),
  ("claude-3-haiku-20240307", ⟨0.25, 1.25⟩),
  ("Claude (estimated)", ⟨3.0, 15.0⟩),
  ("gpt-4o", ⟨2.5, 10.0⟩),
  ("gpt-4o-mini", ⟨0.15, 0.6⟩),
  ("o1", ⟨15.0, 60.0⟩),
  ("o1-preview", ⟨15.0, 60.0⟩),
  ("o1-mini", ⟨3.0, 12.0⟩),
  ("gemini-2.5-pro", ⟨1.25, 10.0⟩),
  ("gemini-2.5-flash", ⟨0.15, 0.60⟩),
  ("gemini-2.0-flash", ⟨0.10, 0.40⟩),
  ("gemini-1.5-pro", ⟨1.25, 5.0⟩),
  ("gemini-1.5-flash", ⟨0.075, 0.30⟩),
  ("Gemini (estimated)", ⟨1.25, 10.0⟩),
  ("grok-3", ⟨5.0, 15.0⟩),
  ("grok-3-mini", ⟨0.30, 0.50⟩),
  ("grok-2", ⟨2.0, 10.0⟩),
  ("Grok (estimated)", ⟨5.0, 15.0⟩),
  ("default", ⟨3.0, 15.0⟩)]

/-- `MODEL_PRICING[modelName] || MODEL_PRICING["default"]` for the
analysisService table (a found entry is an object, hence truthy). -/
def lookupPricing (name : String) : Pricing :=
  ((MODEL_PRICING.find? (fun e => e.1 == name)).map (fun e => e.2)).getD ⟨3.0, 15.0⟩

/-- `modelName.split('-').slice(0, 3).join('-')`, the breakdown-name
shortening in `calculateAnalysis`. -/
def shortenModelName (name : String) : String :=
  String.intercalate "-" ((name.splitOn "-").take 3)

/-- The `AnalysisResult` returned by `calculateAnalysis`
(src/types.ts / src/services/analysisService.ts). -/
structure AnalysisResult where
  currentMonthlyCost : ℚ
  apiEquivalentCost : ℚ
  savings : ℚ
  isOverpaying : Bool
  recommendedPlan : String
  modelBreakdown : List (String × Nat)
deriving Repr, DecidableEq

/-- The `forEach` accumulation step over `Object.entries(by_model)` in
`calculateAnalysis`: add the entry's cost and append its breakdown row. -/
def analysisStep (acc : ℚ × List (String × Nat)) (e : String × ModelTokens) :
    ℚ × List (String × Nat) :=
  let pricing := lookupPricing e.1
  (acc.1 + ((e.2.input : ℚ) / 1000000 * pricing.input +
            (e.2.output : ℚ) / 1000000 * pricing.output),
   acc.2 ++ [(shortenModelName e.1, e.2.input + e.2.output)])

/-- `calculateAnalysis` (src/services/analysisService.ts lines 38-88): fold
the per-model costs, fall back to the `"default"` rate on the aggregate
totals when `by_model` is empty, then derive the verdict. -/
def calculateAnalysis (report : UsageReport) : AnalysisResult :=
  let folded := report.usage.tokens.by_model.foldl analysisStep (0, [])
  let apiCost : ℚ :=
    if report.usage.tokens.by_model.isEmpty then
      (report.usage.tokens.input : ℚ) / 1000000 * (3.0 : ℚ) +
      (report.usage.tokens.output : ℚ) / 1000000 * (15.0 : ℚ)
    else folded.1
  let modelBreakdown :=
    if report.usage.tokens.by_model.isEmpty then
      folded.2 ++ [("Aggregate", report.usage.tokens.input + report.usage.tokens.output)]
    else folded.2
  let currentCost := report.plan.price_usd
  let isOverpaying : Bool := decide (apiCost < currentCost)
  let savings : ℚ := |currentCost - apiCost|
  let recommendedPlan : String :=
    if !isOverpaying && decide (currentCost < apiCost * (0.8 : ℚ)) then
      "Keep Current Subscription"
    else if !isOverpaying then
      "Subscription (Good Value)"
    else
      "API (Pay-As-You-Go)"
  { currentMonthlyCost := currentCost,
    apiEquivalentCost := round2 apiCost,
    savings := round2 savings,
    isOverpaying := isOverpaying,
    recommendedPlan := recommendedPlan,
    modelBreakdown := modelBreakdown }

/-- Cost of one `by_model` entry under the analysisService pricing table:
`tokens.input/1e6 * price.input + tokens.output/1e6 * price.output`. -/
def entryCost (e : String × ModelTokens) : ℚ :=
  (e.2.input : ℚ) / 1000000 * (lookupPricing e.1).input +
  (e.2.output : ℚ) / 1000000 * (lookupPricing e.1).output

/-- The specification-level cost of 4.3 before presentation rounding: the sum
of the per-model entry costs, or the `"default"` rate applied to the
aggregate totals when `by_model` is empty. -/
def rawApiCost (report : UsageReport) : ℚ :=
  if report.usage.tokens.by_model.isEmpty then
    (report.usage.tokens.input : ℚ) / 1000000 * (3.0 : ℚ) +
    (report.usage.tokens.output : ℚ) / 1000000 * (15.0 : ℚ)
  else (report.usage.tokens.by_model.map entryCost).sum

/-- Pricing table of src/constants.ts (lines 224-247), the one the trend
service imports; note its `"default"` entry differs from the
analysisService table's. -/
def CONSTANTS_MODEL_PRICING : List (String × Pricing) := [
  ("claude-opus-4-5-20251101", ⟨15.0, 75.0⟩),
  ("claude-sonnet-4-5-20250929", ⟨3.0, 15.0⟩),
  ("claude-3-5-sonnet-20241022", ⟨3.0, 15.0⟩),
  ("claude-3-5-sonnet-20240620", ⟨3.0, 15.0⟩),
  ("claude-3-opus-20240229", ⟨15.0, 75.0⟩),
  ("claude-3-sonnet-20240229", ⟨3.0, 15.0⟩),
  ("claude-3-5-haiku-20241022", ⟨0.80, 4.0⟩),
  ("claude-3-haiku-20240307", ⟨0.25, 1.25⟩),
  ("gpt-4o", ⟨2.5, 10.0⟩),
  ("gpt-4o-2024-11-20", ⟨2.5, 10.0⟩),
  ("gpt-4o-mini", ⟨0.15, 0.60⟩),
  ("gpt-4-turbo", ⟨10.0, 30.0⟩),
  ("gpt-4-turbo-2024-04-09", ⟨10.0, 30.0⟩),
  ("gpt-4", ⟨30.0, 60.0⟩),
  ("gpt-3.5-turbo", ⟨0.50, 1.50⟩),
  ("o1", ⟨15.0, 60.0⟩),
  ("o1-mini", ⟨3.0, 12.0⟩),
  ("o1-preview", ⟨15.0, 60.0⟩),
  ("default", ⟨5.0, 20.0⟩)]

/-- `MODEL_PRICING[model] || MODEL_PRICING['default']` for the constants.ts
table used by src/services/trendService.ts. -/
def lookupConstantsPricing (name : String) : Pricing :=
  ((CONSTANTS_MODEL_PRICING.find? (fun e => e.1 == name)).map (fun e => e.2)).getD ⟨5.0, 20.0⟩

/-- `calculateReportCost` (src/services/trendService.ts lines 7-18): the loop
over `Object.entries(by_model)` accumulating per-model cost under the
constants.ts pricing table.  There is no empty-`by_model` fallback and no
rounding. -/
def calculateReportCost (report : UsageReport) : ℚ :=
  report.usage.tokens.by_model.foldl
    (fun totalCost e =>
      let pricing := lookupConstantsPricing e.1
      totalCost + ((e.2.input : ℚ) / 1000000 * pricing.input +
                   (e.2.output : ℚ) / 1000000 * pricing.output))
    0

/-- Cost of one `by_model` entry under the constants.ts pricing table. -/
def constantsEntryCost (e : String × ModelTokens) : ℚ :=
  (e.2.input : ℚ) / 1000000 * (lookupConstantsPricing e.1).input +
  (e.2.output : ℚ) / 1000000 * (lookupConstantsPricing e.1).output

/-- One plan row of `PLAN_LIMITS` (src/constants.ts lines 251-255). -/
structure PlanLimit where
  messagesPerDay : Nat
  price : ℚ
deriving Repr, DecidableEq

/-- `PLAN_LIMITS` (src/constants.ts): daily message ceilings and prices of
the three Claude tiers. -/
def PLAN_LIMITS : List (String × PlanLimit) := [
  ("Claude Pro", ⟨100, 20⟩),
  ("Claude Max 5x", ⟨500, 100⟩),
  ("Claude Max 20x", ⟨2000, 200⟩)]

/-- `PLAN_LIMITS[k]` with the `|| PLAN_LIMITS['Claude Max 20x']` fallback of
analysisService.ts line 180 (for the three literal keys used elsewhere the
fallback never fires). -/
def planLimit (k : String) : PlanLimit :=
  ((PLAN_LIMITS.find? (fun e => e.1 == k)).map (fun e => e.2)).getD ⟨2000, 200⟩

/-- One row of the `dailyUsage` array built by `analyzePlanFit`. -/
structure DailyUsageEntry where
  date : String
  count : Nat
  isOverPro : Bool
  isOverMax5x : Bool
  isOverMax20x : Bool
deriving Repr, DecidableEq

/-- The recommendation tier of `analyzePlanFit`. -/
inductive PlanRec where
  | pro
  | max5x
  | max20x
deriving Repr, DecidableEq

/-- The `recommendationReason` strings of `analyzePlanFit`, modelled as
tagged values carrying the numbers interpolated into the message. -/
inductive RecReason where
  | overMax5x (days : Nat)
  | nearMax5x (peak : Nat)
  | overPro (days : Nat)
  | nearPro (peak : Nat)
  | fits (peak : Nat)
deriving Repr, DecidableEq

/-- The `confidence` field of `PlanFitResult`. -/
inductive Confidence where
  | high
  | medium
  | low
deriving Repr, DecidableEq

/-- `PlanFitResult` (src/services/analysisService.ts lines 101-118). -/
structure PlanFitResult where
  peakMessages : Nat
  peakDate : String
  avgMessages : Nat
  totalMessages : Nat
  totalDays : Nat
  daysOverPro : Nat
  daysOverMax5x : Nat
  daysOverMax20x : Nat
  dailyUsage : List DailyUsageEntry
  recommendation : PlanRec
  recommendationReason : RecReason
  currentPlan : String
  currentPrice : ℚ
  recommendedPrice : ℚ
  savings : ℚ
  confidence : Confidence
deriving Repr, DecidableEq

/-- `analyzePlanFit` (src/services/analysisService.ts lines 124-215):
classify each day against the tier ceilings, find the peak day by a fold
with a zero-count seed, count over-limit days, and derive the
recommendation by the source's if/else cascade.  `Math.round` in the
average is modelled by `round`; the `currentPlan || (data.plan.name ...) ||
'Claude Max 20x'` truthiness chain treats an empty plan name as absent. -/
def analyzePlanFit (data : UsageReport) (currentPlan : Option String) : PlanFitResult :=
  let byDay := data.usage.messages.by_day
  let dailyUsage : List DailyUsageEntry := byDay.map (fun day =>
    { date := day.date,
      count := day.count,
      isOverPro := decide ((planLimit "Claude Pro").messagesPerDay < day.count),
      isOverMax5x := decide ((planLimit "Claude Max 5x").messagesPerDay < day.count),
      isOverMax20x := decide ((planLimit "Claude Max 20x").messagesPerDay < day.count) })
  let peakDay : DailyUsageEntry := dailyUsage.foldl
    (fun mx day => if mx.count < day.count then day else mx)
    { date := "", count := 0, isOverPro := false, isOverMax5x := false, isOverMax20x := false }
  let daysOverPro := (dailyUsage.filter (fun d => d.isOverPro)).length
  let daysOverMax5x := (dailyUsage.filter (fun d => d.isOverMax5x)).length
  let daysOverMax20x := (dailyUsage.filter (fun d => d.isOverMax20x)).length
  let totalMessages : Nat := dailyUsage.foldl (fun sum d => sum + d.count) 0
  let totalDays := dailyUsage.length
  let avgMessages : Nat :=
    if 0 < totalDays then (round ((totalMessages : ℚ) / (totalDays : ℚ))).toNat else 0
  let recommendation : PlanRec :=
    if 0 < daysOverMax5x then .max20x
    else if 400 ≤ peakDay.count then .max5x
    else if 0 < daysOverPro then .max5x
    else if 80 ≤ peakDay.count then .max5x
    else .pro
  let recommendationReason : RecReason :=
    if 0 < daysOverMax5x then .overMax5x daysOverMax5x
    else if 400 ≤ peakDay.count then .nearMax5x peakDay.count
    else if 0 < daysOverPro then .overPro daysOverPro
    else if 80 ≤ peakDay.count then .nearPro peakDay.count
    else .fits peakDay.count
  let detected : String :=
    match currentPlan with
    | some c => c
    | none => if data.plan.name == "" then "Claude Max 20x" else data.plan.name
  let detectedInfo := planLimit detected
  let recommendedInfo := planLimit
    (match recommendation with
     | .pro => "Claude Pro"
     | .max5x => "Claude Max 5x"
     | .max20x => "Claude Max 20x")
  let currentPrice := detectedInfo.price
  let recommendedPrice := recommendedInfo.price
  let savings := currentPrice - recommendedPrice
  let confidence : Confidence :=
    if 30 ≤ totalDays then .high
    else if 14 ≤ totalDays then .medium
    else .low
  { peakMessages := peakDay.count,
    peakDate := peakDay.date,
    avgMessages := avgMessages,
    totalMessages := totalMessages,
    totalDays := totalDays,
    daysOverPro := daysOverPro,
    daysOverMax5x := daysOverMax5x,
    daysOverMax20x := daysOverMax20x,
    dailyUsage := dailyUsage,
    recommendation := recommendation,
    recommendationReason := recommendationReason,
    currentPlan := detected,
    currentPrice := currentPrice,
    recommendedPrice := recommendedPrice,
    savings := max 0 savings,
    confidence := confidence }

/-- An ISO-8601 timestamp string, abstracted to the two views the scanner
takes of it: `time` is the instant `new Date(ts)` compares by, `date` is the
calendar-date prefix `ts.split('T')[0]`. -/
structure Timestamp where
  date : String
  time : Int
deriving Repr, DecidableEq

/-- The `message.usage` payload of one JSONL record; each token field may be
absent (the destructuring in claude.ts defaults it to 0). -/
structure UsageFields where
  input_tokens : Option Nat
  output_tokens : Option Nat
  cache_read_input_tokens : Option Nat
  cache_creation_input_tokens : Option Nat
deriving Repr, DecidableEq

/-- The `message` object of one JSONL record: an optional `usage` payload
and an optional `model` id (an absent or empty model string is falsy in
`entry.message.model || 'unknown'`, so the model is `Option String` and the
empty string is handled at use). -/
structure MessageBody where
  usage : Option UsageFields
  model : Option String
deriving Repr, DecidableEq

/-- One decoded JSONL record (`ClaudeMessage` in the CLI's types): optional
`message` object and optional top-level `timestamp`.  An absent or empty
timestamp string is falsy in `entry.timestamp && ...`, so it is modelled as
`none`. -/
structure ClaudeMessage where
  message : Option MessageBody
  timestamp : Option Timestamp
deriving Repr, DecidableEq

/-- One raw input line, abstracted over the built-in `JSON.parse`: a line is
whitespace-only (`!line.trim()`), invalid JSON (`JSON.parse` throws), or a
decoded record. -/
inductive RawLine where
  | blank
  | invalid
  | json (m : ClaudeMessage)
deriving Repr, DecidableEq

/-- `parseJsonlLine` (claude.ts lines 34-42): `null` for a blank line, `null`
when `JSON.parse` throws (the catch), otherwise the decoded record.  Totality
of this function is the "never throws" contract. -/
def parseJsonlLine : RawLine → Option ClaudeMessage
  | .blank => none
  | .invalid => none
  | .json m => some m

/-- `isWithinDateRange` (claude.ts lines 47-56): reject when a present start
bound strictly exceeds the instant, reject when a present end bound is
strictly below it, otherwise accept (both bounds inclusive). -/
def isWithinDateRange (timestamp : Timestamp) (startDate endDate : Option Int) : Bool :=
  if startDate.any (fun s => timestamp.time < s) then false
  else if endDate.any (fun e => e < timestamp.time) then false
  else true

/-- The per-day accumulator values of the scanner's `dayMap`. -/
structure DayData where
  count : Nat
  input : Nat
  output : Nat
deriving Repr, DecidableEq

/-- The mutable aggregation state of `scanClaudeUsage`'s line loop: the
running token totals, the `by_model` record and the `dayMap`, both in
insertion order. -/
structure ScanState where
  input : Nat
  output : Nat
  cached : Nat
  by_model : List (String × ModelTokens)
  messagesCount : Nat
  dayMap : List (String × DayData)
deriving Repr, DecidableEq

/-- `by_model[model] ??= {input: 0, output: 0}; by_model[model].input += i;
by_model[model].output += o` on the insertion-ordered association list. -/
def bumpModel (l : List (String × ModelTokens)) (m : String) (i o : Nat) :
    List (String × ModelTokens) :=
  match l with
  | [] => [(m, ⟨i, o⟩)]
  | e :: rest =>
    if e.1 == m then (e.1, ⟨e.2.input + i, e.2.output + o⟩) :: rest
    else e :: bumpModel rest m i o

/-- `dayMap[dateKey] ??= {count: 0, input: 0, output: 0}` followed by the
three `+=` updates, on the insertion-ordered association list. -/
def bumpDay (l : List (String × DayData)) (d : String) (i o : Nat) :
    List (String × DayData) :=
  match l with
  | [] => [(d, ⟨1, i, o⟩)]
  | e :: rest =>
    if e.1 == d then (e.1, ⟨e.2.count + 1, e.2.input + i, e.2.output + o⟩) :: rest
    else e :: bumpDay rest d i o

/-- The body of the `for (const line of lines)` loop in `scanClaudeUsage`
(claude.ts lines 153-203): parse, require `message.usage`, apply the date
window to timestamped events, then accumulate totals, `by_model`, the
message count and (for timestamped events) the `dayMap`.  The `minDate`/
`maxDate` tracking feeds only the omitted `period` field. -/
def processLine (startDate endDate : Option Int) (st : ScanState) (l : RawLine) : ScanState :=
  match parseJsonlLine l with
  | none => st
  | some entry =>
    match entry.message with
    | none => st
    | some msg =>
      match msg.usage with
      | none => st
      | some u =>
        if entry.timestamp.any (fun t => !isWithinDateRange t startDate endDate) then st
        else
          let input_tokens := u.input_tokens.getD 0
          let output_tokens := u.output_tokens.getD 0
          let cache_read_input_tokens := u.cache_read_input_tokens.getD 0
          let cache_creation_input_tokens := u.cache_creation_input_tokens.getD 0
          let model : String :=
            match msg.model with
            | none => "unknown"
            | some s => if s == "" then "unknown" else s
          { input := st.input + input_tokens,
            output := st.output + output_tokens,
            cached := st.cached + cache_read_input_tokens + cache_creation_input_tokens,
            by_model := bumpModel st.by_model model input_tokens output_tokens,
            messagesCount := st.messagesCount + 1,
            dayMap :=
              match entry.timestamp with
              | none => st.dayMap
              | some t => bumpDay st.dayMap t.date input_tokens output_tokens }

/-- One session file presented to the scanner: its path and either its split
lines or the I/O error `fs.readFileSync` threw. -/
structure SessionFile where
  path : String
  content : Except String (List RawLine)

/-- The scan options after the date-window bounds have been resolved
(claude.ts lines 72-86), plus the `verbose` flag. -/
structure ScanOptions where
  startDate : Option Int
  endDate : Option Int
  verbose : Bool

/-- Accumulator threaded over the session files: the line-loop state, the
session counter and the collected error messages. -/
structure ScanAcc where
  st : ScanState
  sessions : Nat
  errors : List String

/-- The body of the `for (const file of files)` loop (claude.ts lines
144-212): count the session, then either fold the file's lines or catch its
read error, recording it only under `options.verbose`. -/
def processFile (opts : ScanOptions) (acc : ScanAcc) (f : SessionFile) : ScanAcc :=
  let acc := { acc with sessions := acc.sessions + 1 }
  match f.content with
  | .error err =>
    if opts.verbose then
      { acc with errors := acc.errors ++ ["Error reading " ++ f.path ++ ": " ++ err] }
    else acc
  | .ok lines => { acc with st := lines.foldl (processLine opts.startDate opts.endDate) acc.st }

/-- The all-zero `UsageReport` that `scanClaudeUsage` initialises (claude.ts
lines 89-116), restricted to the embedded fields. -/
def emptyScanReport : UsageReport :=
  { plan := { name := "Claude Pro", price_usd := 20 },
    usage :=
      { tokens := { input := 0, output := 0, cached := 0, by_model := [] },
        messages := { count := 0, by_day := [] },
        sessions := { count := 0 } } }

/-- `Object.entries(dayMap).map(...).sort((a, b) => a.date.localeCompare(b.date))`
(claude.ts lines 224-226): the day buckets in insertion order, sorted by date
string. -/
def sortedByDay (dayMap : List (String × DayData)) : List DayEntry :=
  (dayMap.map (fun e => DayEntry.mk e.1 e.2.count e.2.input e.2.output)).mergeSort
    (fun a b => a.date ≤ b.date)

/-- `scanClaudeUsage` (claude.ts lines 61-233) over an abstract file system:
if the projects directory is missing, return the all-zero report plus the
single descriptive error; otherwise fold every session file and assemble the
report (the `period` finalisation is omitted with the `period` field). -/
def scanClaudeUsage (opts : ScanOptions) (rootExists : Bool) (files : List SessionFile) :
    UsageReport × List String :=
  if !rootExists then
    (emptyScanReport, ["Claude projects directory not found: ~/.claude/projects"])
  else
    let acc := files.foldl (processFile opts) ⟨⟨0, 0, 0, [], 0, []⟩, 0, []⟩
    ({ plan := { name := "Claude Pro", price_usd := 20 },
       usage :=
         { tokens :=
             { input := acc.st.input, output := acc.st.output, cached := acc.st.cached,
               by_model := acc.st.by_model },
           messages := { count := acc.st.messagesCount, by_day := sortedByDay acc.st.dayMap },
           sessions := { count := acc.sessions } } },
     acc.errors)

/-- A line is usable when it decodes and carries a `message.usage` payload
(`!entry?.message?.usage` in claude.ts line 155). -/
def lineUsable (l : RawLine) : Bool :=
  (parseJsonlLine l).any (fun m => m.message.any (fun mb => mb.usage.isSome))

/-- The claim-side window predicate of 8: keep an event iff it has no
timestamp, or every present bound admits it inclusively. -/
def keepSpec (ts : Option Timestamp) (startDate endDate : Option Int) : Bool :=
  match ts with
  | none => true
  | some t => startDate.all (fun s => s ≤ t.time) && endDate.all (fun e => t.time ≤ e)

/-- Sum of the `input` components of a `by_model` association list. -/
def modelSumInput (l : List (String × ModelTokens)) : Nat :=
  (l.map (fun e => e.2.input)).sum

/-- Sum of the `output` components of a `by_model` association list. -/
def modelSumOutput (l : List (String × ModelTokens)) : Nat :=
  (l.map (fun e => e.2.output)).sum

/-- Sum of the `input` components of the scanner's day map. -/
def daySumInput (l : List (String × DayData)) : Nat :=
  (l.map (fun e => e.2.input)).sum

/-- Sum of the `output` components of the scanner's day map. -/
def daySumOutput (l : List (String × DayData)) : Nat :=
  (l.map (fun e => e.2.output)).sum

/-- Sum of the `count` components of the scanner's day map. -/
def daySumCount (l : List (String × DayData)) : Nat :=
  (l.map (fun e => e.2.count)).sum

/-- Sum of `by_day[*].input`. -/
def byDaySumInput (l : List DayEntry) : Nat := (l.map (fun d => d.input)).sum

/-- Sum of `by_day[*].output`. -/
def byDaySumOutput (l : List DayEntry) : Nat := (l.map (fun d => d.output)).sum

/-- Sum of `by_day[*].count`. -/
def byDaySumCount (l : List DayEntry) : Nat := (l.map (fun d => d.count)).sum

/-- A line that, whenever it is usable (decodes with a `message.usage`
payload), also carries a timestamp.  Only such lines contribute to the
day map. -/
def GoodLine (l : RawLine) : Prop :=
  ∀ m, l = RawLine.json m →
    m.message.any (fun mb => mb.usage.isSome) = true → m.timestamp.isSome = true

/-- Maximum day count of a `by_day` series (with 0 for the empty series),
the claim-side peak. -/
def peakCount (byDay : List DayEntry) : Nat :=
  byDay.foldl (fun m d => max m d.count) 0

/-- Replace the tokens of the `i`-th `by_model` entry of a report, leaving
everything else unchanged (the update claim C9 quantifies over). -/
def setModelTokens (r : UsageReport) (i : Nat) (name : String) (t : ModelTokens) : UsageReport :=
  { r with usage := { r.usage with tokens :=
      { r.usage.tokens with by_model := r.usage.tokens.by_model.set i (name, t) } } }

/-- A report with one per-model entry totalling 1000 input tokens at
Sonnet pricing: its exact 4.3 cost is $0.003, which the code's two-decimal
presentation rounding collapses to $0.00. -/
def roundingReport : UsageReport :=
  { plan := { name := "Claude Pro", price_usd := 0 },
    usage :=
      { tokens := { input := 1000, output := 0, cached := 0,
                    by_model := [("claude-3-5-sonnet-20241022", ⟨1000, 0⟩)] },
        messages := { count := 1, by_day := [] },
        sessions := { count := 1 } } }

/-- A report whose subscription price ($10) is below 80% of its
pay-as-you-go cost ($15): the code labels it "Keep Current Subscription",
not "Subscription (Good Value)". -/
def cheapPlanReport : UsageReport :=
  { plan := { name := "Claude Pro", price_usd := 10 },
    usage :=
      { tokens := { input := 5000000, output := 0, cached := 0, by_model := [] },
        messages := { count := 1, by_day := [] },
        sessions := { count := 1 } } }

/-- A report with no per-model breakdown but 1M aggregate input tokens: the
trend service costs it at $0 while the cost estimator's fallback prices it
at $3. -/
def aggregateOnlyReport : UsageReport :=
  { plan := { name := "Claude Pro", price_usd := 20 },
    usage :=
      { tokens := { input := 1000000, output := 0, cached := 0, by_model := [] },
        messages := { count := 1, by_day := [] },
        sessions := { count := 1 } } }

/-- A report whose `by_day` series is empty (e.g. built from data with no
timestamps), the degenerate input of claim C10. -/
def noDayReport : UsageReport :=
  { plan := { name := "Claude Max 20x", price_usd := 200 },
    usage :=
      { tokens := { input := 7, output := 3, cached := 0, by_model := [("m", ⟨7, 3⟩)] },
        messages := { count := 1, by_day := [] },
        sessions := { count := 1 } } }

/-- A report with a single 550-message day, the concrete classification
example of claim C6. -/
def day550Report : UsageReport :=
  { plan := { name := "Claude Max 20x", price_usd := 200 },
    usage :=
      { tokens := { input := 0, output := 0, cached := 0, by_model := [] },
        messages := { count := 550, by_day := [⟨"2024-01-01", 550, 0, 0⟩] },
        sessions := { count := 1 } } }

/-- A single usable JSONL record carrying 5 input tokens and no timestamp:
it is retained (counted in the totals and `by_model`) but produces no
`by_day` bucket. -/
def noTimestampLine : RawLine :=
  RawLine.json ⟨some ⟨some ⟨some 5, none, none, none⟩, some "m"⟩, none⟩

/-- A session file whose read fails with an I/O error. -/
def failingFile : SessionFile := ⟨"proj/session1.jsonl", Except.error "EACCES"⟩

/-- A one-line session file used by witnesses: one usable, timestamped
record (10 input tokens, 2 output tokens, model `"m1"`, day 2024-01-02). -/
def simpleFile : SessionFile :=
  ⟨"proj/session2.jsonl",
   Except.ok [RawLine.json ⟨some ⟨some ⟨some 10, some 2, none, none⟩, some "m1"⟩,
              some ⟨"2024-01-02", 100⟩⟩]⟩

/-- The message the scanner records for a failed session read, under
`options.verbose`. -/
def readErrorMsg (f : SessionFile) : Option String :=
  match f.content with
  | .error e => some ("Error reading " ++ f.path ++ ": " ++ e)
  | .ok _ => none

/-- Invariant relating the running totals to the `by_model` record and
stating that the day-map keys stay distinct. -/
def InvA (st : ScanState) : Prop :=
  st.input = modelSumInput st.by_model ∧
  st.output = modelSumOutput st.by_model ∧
  (st.dayMap.map Prod.fst).Nodup

/-- Invariant relating the running totals and message count to the day map;
it is preserved only by lines whose usable events carry timestamps. -/
def InvB (st : ScanState) : Prop :=
  st.input = daySumInput st.dayMap ∧
  st.output = daySumOutput st.dayMap ∧
  st.messagesCount = daySumCount st.dayMap

/-! ## Helper lemmas: cost estimator -/

/-- The forEach fold of `calculateAnalysis` computes, in its first
component, the starting cost plus the sum of the per-entry costs. -/
lemma foldl_analysisStep_fst (l : List (String × ModelTokens)) :
    ∀ (a : ℚ) (b : List (String × Nat)),
      (List.foldl analysisStep (a, b) l).1 = a + (l.map entryCost).sum := by
  induction l with
  | nil => intro a b; simp
  | cons e t ih =>
    intro a b
    simp only [List.foldl_cons, List.map_cons, List.sum_cons, analysisStep, ih, entryCost]
    ring

/-- The cost `calculateAnalysis` derives its verdicts from is `rawApiCost`. -/
lemma calculateAnalysis_apiEquivalentCost (r : UsageReport) :
    (calculateAnalysis r).apiEquivalentCost = round2 (rawApiCost r) := by
  by_cases h : r.usage.tokens.by_model.isEmpty <;>
    simp [calculateAnalysis, rawApiCost, h, foldl_analysisStep_fst]

/-- The overpaying flag compares the subscription price against the exact
(unrounded) cost. -/
lemma calculateAnalysis_isOverpaying (r : UsageReport) :
    (calculateAnalysis r).isOverpaying = decide (rawApiCost r < r.plan.price_usd) := by
  by_cases h : r.usage.tokens.by_model.isEmpty <;>
    simp [calculateAnalysis, rawApiCost, h, foldl_analysisStep_fst]

/-- The savings field is the rounded absolute difference between the price
and the exact cost. -/
lemma calculateAnalysis_savings (r : UsageReport) :
    (calculateAnalysis r).savings = round2 |r.plan.price_usd - rawApiCost r| := by
  by_cases h : r.usage.tokens.by_model.isEmpty <;>
    simp [calculateAnalysis, rawApiCost, h, foldl_analysisStep_fst]

/-- The source's two boolean tests produce the same label as the cascade
ordered overpaying-first. -/
lemma labelCascade (cost price : ℚ) :
    (if !(decide (cost < price)) && decide (price < cost * (0.8 : ℚ)) then
       "Keep Current Subscription"
     else if !(decide (cost < price)) then "Subscription (Good Value)"
     else "API (Pay-As-You-Go)")
    = if cost < price then "API (Pay-As-You-Go)"
      else if price < cost * (0.8 : ℚ) then "Keep Current Subscription"
      else "Subscription (Good Value)" := by
  by_cases h1 : cost < price <;> by_cases h2 : price < cost * (0.8 : ℚ) <;> simp [h1, h2]

/-- The label cascade of `calculateAnalysis`, restructured around the exact
cost: pay-as-you-go when overpaying, the plain keep label when the price is
under 80% of the cost, the good-value label otherwise. -/
lemma calculateAnalysis_recommendedPlan (r : UsageReport) :
    (calculateAnalysis r).recommendedPlan =
      if rawApiCost r < r.plan.price_usd then "API (Pay-As-You-Go)"
      else if r.plan.price_usd < rawApiCost r * (0.8 : ℚ) then "Keep Current Subscription"
      else "Subscription (Good Value)" := by
  simp only [calculateAnalysis, labelCascade]
  by_cases h : r.usage.tokens.by_model.isEmpty <;>
    simp [h, rawApiCost, foldl_analysisStep_fst]

/-! ## Claim C3 -/

/-- C3, counterexample: the claim says `apiEquivalentCost` equals the exact
per-model sum, but on a report with 1000 Sonnet input tokens the exact sum
is $0.003 while the returned field is the two-decimal rounding $0.00. -/
theorem c3_counterexample :
    (calculateAnalysis roundingReport).apiEquivalentCost ≠ rawApiCost roundingReport ∧
    rawApiCost roundingReport = (3 : ℚ) / 1000 ∧
    (calculateAnalysis roundingReport).apiEquivalentCost = 0 := by
  have hraw : rawApiCost roundingReport = (3 : ℚ) / 1000 := by
    norm_num [rawApiCost, roundingReport, entryCost]
    rw [show lookupPricing "claude-3-5-sonnet-20241022" = ⟨3.0, 15.0⟩ from rfl]
    norm_num
  have happ : (calculateAnalysis roundingReport).apiEquivalentCost = 0 := by
    rw [calculateAnalysis_apiEquivalentCost, hraw]
    norm_num [round2, round_eq]
  exact ⟨by rw [happ, hraw]; norm_num, hraw, happ⟩

/-- C3 (amended): `calculateAnalysis` computes the exact cost `rawApiCost`
as the claim describes (per-model sum with default fallback, or the default
rate on the aggregate totals when `by_model` is empty); the returned
`apiEquivalentCost` and `savings` are that value rounded to two decimals,
and `isOverpaying` compares the subscription price with the exact
(unrounded) cost. -/
theorem c3_amended (r : UsageReport) :
    (calculateAnalysis r).apiEquivalentCost = round2 (rawApiCost r) ∧
    (calculateAnalysis r).isOverpaying = decide (rawApiCost r < r.plan.price_usd) ∧
    (calculateAnalysis r).savings = round2 |r.plan.price_usd - rawApiCost r| ∧
    rawApiCost r =
      (if r.usage.tokens.by_model.isEmpty then
        (r.usage.tokens.input : ℚ) / 1000000 * (3.0 : ℚ) +
        (r.usage.tokens.output : ℚ) / 1000000 * (15.0 : ℚ)
      else (r.usage.tokens.by_model.map entryCost).sum) :=
  ⟨calculateAnalysis_apiEquivalentCost r, calculateAnalysis_isOverpaying r,
   calculateAnalysis_savings r, rfl⟩

/-! ## Claim C4 -/

/-- C4, counterexample: on a report costing $15 pay-as-you-go with a $10
subscription, the price is below 80% of the cost, yet the code returns the
plain "Keep Current Subscription" label, not "Subscription (Good Value)" as
the claim requires. -/
theorem c4_counterexample :
    cheapPlanReport.plan.price_usd < rawApiCost cheapPlanReport * (0.8 : ℚ) ∧
    (calculateAnalysis cheapPlanReport).recommendedPlan = "Keep Current Subscription" ∧
    "Keep Current Subscription" ≠ "Subscription (Good Value)" := by
  have hraw : rawApiCost cheapPlanReport = 15 := by
    norm_num [rawApiCost, cheapPlanReport]
  refine ⟨by rw [hraw]; norm_num [cheapPlanReport], ?_, by decide⟩
  rw [calculateAnalysis_recommendedPlan, hraw]
  norm_num [cheapPlanReport]

/-- C4 (amended): the recommendation label is the pay-as-you-go switch
exactly when the subscription price exceeds the exact cost; it is the
plain "Keep Current Subscription" label exactly when not overpaying and
`price < cost * 0.8`; and it is the "Subscription (Good Value)" label in
every remaining case — the two keep-labels are swapped relative to the
claim. -/
theorem c4_amended (r : UsageReport) :
    ((calculateAnalysis r).recommendedPlan = "API (Pay-As-You-Go)" ↔
      rawApiCost r < r.plan.price_usd) ∧
    ((calculateAnalysis r).recommendedPlan = "Keep Current Subscription" ↔
      (¬ rawApiCost r < r.plan.price_usd ∧
       r.plan.price_usd < rawApiCost r * (0.8 : ℚ))) ∧
    ((calculateAnalysis r).recommendedPlan = "Subscription (Good Value)" ↔
      (¬ rawApiCost r < r.plan.price_usd ∧
       ¬ r.plan.price_usd < rawApiCost r * (0.8 : ℚ))) := by
  rw [calculateAnalysis_recommendedPlan]
  by_cases h1 : rawApiCost r < r.plan.price_usd <;>
    by_cases h2 : r.plan.price_usd < rawApiCost r * (0.8 : ℚ) <;>
    simp [h1, h2]

/-! ## Claim C9 -/

/-- Every price in the analysisService table — and the default fallback —
is nonnegative. -/
lemma lookupPricing_nonneg (name : String) :
    0 ≤ (lookupPricing name).input ∧ 0 ≤ (lookupPricing name).output := by
  have hall : ∀ e ∈ MODEL_PRICING, 0 ≤ e.2.input ∧ 0 ≤ e.2.output := by
    intro e he
    fin_cases he <;> norm_num
  unfold lookupPricing
  cases h : MODEL_PRICING.find? (fun e => e.1 == name) with
  | none => norm_num
  | some e =>
    have := hall e (List.mem_of_find?_eq_some h)
    simpa using this

/-- The per-entry cost is monotone in both token counts. -/
lemma entryCost_mono (name : String) (t t' : ModelTokens)
    (hi : t.input ≤ t'.input) (ho : t.output ≤ t'.output) :
    entryCost (name, t) ≤ entryCost (name, t') := by
  have h := lookupPricing_nonneg name
  have hi' : (t.input : ℚ) ≤ (t'.input : ℚ) := by exact_mod_cast hi
  have ho' : (t.output : ℚ) ≤ (t'.output : ℚ) := by exact_mod_cast ho
  unfold entryCost
  gcongr
  · exact h.1
  · exact h.2

/-- Replacing one list element by a larger one never decreases the sum. -/
lemma sum_set_le (l : List ℚ) : ∀ (i : Nat) (x y : ℚ),
    l.get? i = some x → x ≤ y → l.sum ≤ (l.set i y).sum := by
  induction l with
  | nil => intro i x y h _; simp at h
  | cons a t ih =>
    intro i x y h hxy
    cases i with
    | zero =>
      simp only [List.get?] at h
      cases h
      simp only [List.set, List.sum_cons]
      linarith
    | succ n =>
      simp only [List.get?] at h
      simp only [List.set, List.sum_cons]
      have := ih n x y h hxy
      linarith

/-- Two-decimal rounding is monotone. -/
lemma round2_mono {x y : ℚ} (h : x ≤ y) : round2 x ≤ round2 y := by
  unfold round2
  have h1 : round (x * 100) ≤ round (y * 100) := by
    rw [round_eq, round_eq]
    exact Int.floor_le_floor (by linarith)
  have h2 : ((round (x * 100) : ℤ) : ℚ) ≤ ((round (y * 100) : ℤ) : ℚ) := by
    exact_mod_cast h1
  linarith

/-- C9 (confirmed): increasing the input or output token count of any
`by_model` entry (all else unchanged) never decreases the
`apiEquivalentCost` returned by the cost estimator. -/
theorem c9_cost_monotone (r : UsageReport) (i : Nat) (name : String) (t t' : ModelTokens)
    (hget : r.usage.tokens.by_model.get? i = some (name, t))
    (hi : t.input ≤ t'.input) (ho : t.output ≤ t'.output) :
    (calculateAnalysis r).apiEquivalentCost ≤
      (calculateAnalysis (setModelTokens r i name t')).apiEquivalentCost := by
  rw [calculateAnalysis_apiEquivalentCost, calculateAnalysis_apiEquivalentCost]
  apply round2_mono
  have hne : r.usage.tokens.by_model ≠ [] := by
    intro hnil; rw [hnil] at hget; simp at hget
  have hlen : i < r.usage.tokens.by_model.length := by
    by_contra hc
    rw [List.get?_eq_none.2 (by omega)] at hget
    exact Option.noConfusion hget
  have hne' : (r.usage.tokens.by_model.set i (name, t')) ≠ [] := by
    intro hnil
    have h1 := congrArg List.length hnil
    rw [List.length_set] at h1
    simp only [List.length_nil] at h1
    omega
  unfold rawApiCost setModelTokens
  simp only [List.isEmpty_iff, hne, hne', if_false, if_neg, not_false_eq_true]
  rw [List.map_set]
  apply sum_set_le
  · rw [List.get?_eq_getElem?] at hget ⊢
    rw [List.getElem?_map, hget]
    rfl
  · exact entryCost_mono name t t' hi ho

/-- C9 witness: a concrete instance of the monotonicity theorem, raising the
input tokens of the single Sonnet entry from 1000 to 2000. -/
theorem c9_cost_monotone_witness :
    (calculateAnalysis roundingReport).apiEquivalentCost ≤
      (calculateAnalysis (setModelTokens roundingReport 0
        "claude-3-5-sonnet-20241022" ⟨2000, 0⟩)).apiEquivalentCost :=
  c9_cost_monotone roundingReport 0 "claude-3-5-sonnet-20241022" ⟨1000, 0⟩ ⟨2000, 0⟩
    (by rfl) (by norm_num) (by norm_num)

/-! ## Claim C5 -/

/-- The trend service's cost loop computes the starting total plus the sum
of the per-entry costs under the constants.ts table. -/
lemma foldl_constCost (l : List (String × ModelTokens)) :
    ∀ (a : ℚ),
      List.foldl
        (fun totalCost e =>
          let pricing := lookupConstantsPricing e.1
          totalCost + ((e.2.input : ℚ) / 1000000 * pricing.input +
                       (e.2.output : ℚ) / 1000000 * pricing.output))
        a l = a + (l.map constantsEntryCost).sum := by
  induction l with
  | nil => intro a; simp
  | cons e t ih =>
    intro a
    simp only [List.foldl_cons, List.map_cons, List.sum_cons, ih, constantsEntryCost]
    ring

/-- C5, counterexample: on a report with no per-model breakdown and 1M
aggregate input tokens, the trend aggregator's per-report cost is $0 while
the cost estimator's `apiEquivalentCost` is $3 — the trend service does not
apply the section 4.3 algorithm (different pricing table, no
empty-`by_model` fallback). -/
theorem c5_counterexample :
    calculateReportCost aggregateOnlyReport = 0 ∧
    (calculateAnalysis aggregateOnlyReport).apiEquivalentCost = 3 ∧
    (0 : ℚ) ≠ 3 := by
  refine ⟨by simp [calculateReportCost, aggregateOnlyReport], ?_, by norm_num⟩
  rw [calculateAnalysis_apiEquivalentCost]
  have hraw : rawApiCost aggregateOnlyReport = 3 := by
    norm_num [rawApiCost, aggregateOnlyReport]
  rw [hraw]
  norm_num [round2, round_eq]

/-- C5 (amended): the per-report cost the trend aggregator sums into each
month bucket is the plain per-model sum under the constants.ts pricing table
(default $5/$20 per 1M tokens), with no rounding and no fallback to the
aggregate totals: a report with an empty `by_model` costs 0.  It therefore
differs from the Cost Estimator of 4.3 whenever that fallback fires or the
two tables price a model differently. -/
theorem c5_amended (r : UsageReport) :
    calculateReportCost r = (r.usage.tokens.by_model.map constantsEntryCost).sum ∧
    (r.usage.tokens.by_model = [] → calculateReportCost r = 0) := by
  have h : calculateReportCost r = (r.usage.tokens.by_model.map constantsEntryCost).sum := by
    unfold calculateReportCost
    rw [foldl_constCost]
    ring
  exact ⟨h, fun hnil => by rw [h, hnil]; simp⟩

/-- C5 witness: the amended theorem applied to the concrete
no-per-model-breakdown report. -/
theorem c5_amended_witness : calculateReportCost aggregateOnlyReport = 0 :=
  (c5_amended aggregateOnlyReport).2 rfl

/-! ## Claims C6 and C10 -/

/-- The peak-day reduce of `analyzePlanFit` computes, in its `count` field,
the maximum of the day counts and the seed count, for any day-classifier
that preserves counts. -/
lemma peak_fold (f : DayEntry → DailyUsageEntry) (hf : ∀ d, (f d).count = d.count)
    (byDay : List DayEntry) :
    ∀ (init : DailyUsageEntry),
      (List.foldl (fun mx day => if mx.count < day.count then day else mx) init
          (byDay.map f)).count =
        List.foldl (fun m d => max m d.count) init.count byDay := by
  induction byDay with
  | nil => intro init; simp
  | cons d t ih =>
    intro init
    simp only [List.map_cons, List.foldl_cons]
    rw [ih]
    have hcount : (if init.count < (f d).count then f d else init).count =
        max init.count d.count := by
      by_cases hc : init.count < (f d).count
      · rw [if_pos hc, hf]
        rw [hf] at hc
        omega
      · rw [if_neg hc]
        rw [hf] at hc
        omega
    rw [hcount]

/-- Counting classified days equals counting the underlying day predicate. -/
lemma filter_count (f : DayEntry → DailyUsageEntry) (p : DailyUsageEntry → Bool)
    (q : DayEntry → Bool) (hq : ∀ d, p (f d) = q d) (byDay : List DayEntry) :
    ((byDay.map f).filter p).length = byDay.countP q := by
  rw [List.filter_map, List.length_map, List.countP_eq_length_filter]
  exact congrArg List.length (List.filter_congr (fun d _ => by simpa using hq d))

/-- The three tier rows of PLAN_LIMITS, by direct computation. -/
lemma planLimit_pro : planLimit "Claude Pro" = ⟨100, 20⟩ := rfl

/-- The mid tier row of PLAN_LIMITS. -/
lemma planLimit_max5x : planLimit "Claude Max 5x" = ⟨500, 100⟩ := rfl

/-- The high tier row of PLAN_LIMITS. -/
lemma planLimit_max20x : planLimit "Claude Max 20x" = ⟨2000, 200⟩ := rfl

/-- The over-limit day counters and the peak of `analyzePlanFit`, expressed
over the raw `by_day` series. -/
lemma analyzePlanFit_spec (data : UsageReport) (cp : Option String) :
    (analyzePlanFit data cp).daysOverMax5x =
        data.usage.messages.by_day.countP (fun d => 500 < d.count) ∧
    (analyzePlanFit data cp).daysOverPro =
        data.usage.messages.by_day.countP (fun d => 100 < d.count) ∧
    (analyzePlanFit data cp).peakMessages = peakCount data.usage.messages.by_day := by
  refine ⟨?_, ?_, ?_⟩
  · simp only [analyzePlanFit]
    exact filter_count _ _ _ (fun d => rfl) _
  · simp only [analyzePlanFit]
    exact filter_count _ _ _ (fun d => rfl) _
  · simp only [analyzePlanFit, peakCount]
    exact peak_fold _ (fun d => rfl) _ _

/-- C6 (confirmed): the plan-fit recommendation follows the strict cascade —
any day over 500 messages forces the high tier (reason citing the number of
such days); otherwise a peak of at least 400 (80% of 500), any day over 100,
or a peak of at least 80 (80% of 100) give the mid tier with the
corresponding reasons; otherwise the low tier.  A one-day series at 550
yields the high tier with one day counted over the mid limit. -/
theorem c6_planfit_cascade (data : UsageReport) (cp : Option String) :
    (analyzePlanFit data cp).daysOverMax5x =
        data.usage.messages.by_day.countP (fun d => 500 < d.count) ∧
    (analyzePlanFit data cp).daysOverPro =
        data.usage.messages.by_day.countP (fun d => 100 < d.count) ∧
    (analyzePlanFit data cp).peakMessages = peakCount data.usage.messages.by_day ∧
    (analyzePlanFit data cp).recommendation =
      (if 0 < data.usage.messages.by_day.countP (fun d => 500 < d.count) then PlanRec.max20x
       else if 400 ≤ peakCount data.usage.messages.by_day then PlanRec.max5x
       else if 0 < data.usage.messages.by_day.countP (fun d => 100 < d.count) then PlanRec.max5x
       else if 80 ≤ peakCount data.usage.messages.by_day then PlanRec.max5x
       else PlanRec.pro) ∧
    (analyzePlanFit data cp).recommendationReason =
      (if 0 < data.usage.messages.by_day.countP (fun d => 500 < d.count) then
         RecReason.overMax5x (data.usage.messages.by_day.countP (fun d => 500 < d.count))
       else if 400 ≤ peakCount data.usage.messages.by_day then
         RecReason.nearMax5x (peakCount data.usage.messages.by_day)
       else if 0 < data.usage.messages.by_day.countP (fun d => 100 < d.count) then
         RecReason.overPro (data.usage.messages.by_day.countP (fun d => 100 < d.count))
       else if 80 ≤ peakCount data.usage.messages.by_day then
         RecReason.nearPro (peakCount data.usage.messages.by_day)
       else RecReason.fits (peakCount data.usage.messages.by_day)) ∧
    (analyzePlanFit day550Report none).recommendation = PlanRec.max20x ∧
    (analyzePlanFit day550Report none).daysOverMax5x = 1 := by
  obtain ⟨h5, h1, hpk⟩ := analyzePlanFit_spec data cp
  have hrec : (analyzePlanFit data cp).recommendation =
      (if 0 < (analyzePlanFit data cp).daysOverMax5x then PlanRec.max20x
       else if 400 ≤ (analyzePlanFit data cp).peakMessages then PlanRec.max5x
       else if 0 < (analyzePlanFit data cp).daysOverPro then PlanRec.max5x
       else if 80 ≤ (analyzePlanFit data cp).peakMessages then PlanRec.max5x
       else PlanRec.pro) := rfl
  have hreason : (analyzePlanFit data cp).recommendationReason =
      (if 0 < (analyzePlanFit data cp).daysOverMax5x then
         RecReason.overMax5x (analyzePlanFit data cp).daysOverMax5x
       else if 400 ≤ (analyzePlanFit data cp).peakMessages then
         RecReason.nearMax5x (analyzePlanFit data cp).peakMessages
       else if 0 < (analyzePlanFit data cp).daysOverPro then
         RecReason.overPro (analyzePlanFit data cp).daysOverPro
       else if 80 ≤ (analyzePlanFit data cp).peakMessages then
         RecReason.nearPro (analyzePlanFit data cp).peakMessages
       else RecReason.fits (analyzePlanFit data cp).peakMessages) := rfl
  refine ⟨h5, h1, hpk, ?_, ?_, by rfl, by rfl⟩
  · rw [hrec, h5, h1, hpk]
  · rw [hreason, h5, h1, hpk]

/-- C10 (confirmed): on a report whose `by_day` series is empty,
`analyzePlanFit` returns the defined degenerate result: zero peak with the
empty-string peak date, zero average, zero days, zero over-limit counters,
the low tier recommendation, and low confidence. -/
theorem c10_empty_by_day (data : UsageReport) (cp : Option String)
    (hday : data.usage.messages.by_day = []) :
    (analyzePlanFit data cp).peakMessages = 0 ∧
    (analyzePlanFit data cp).peakDate = "" ∧
    (analyzePlanFit data cp).avgMessages = 0 ∧
    (analyzePlanFit data cp).totalDays = 0 ∧
    (analyzePlanFit data cp).daysOverPro = 0 ∧
    (analyzePlanFit data cp).daysOverMax5x = 0 ∧
    (analyzePlanFit data cp).daysOverMax20x = 0 ∧
    (analyzePlanFit data cp).recommendation = PlanRec.pro ∧
    (analyzePlanFit data cp).confidence = Confidence.low := by
  simp [analyzePlanFit, hday]

/-- C10 witness: the degenerate result on a concrete report with an empty
`by_day` series. -/
theorem c10_empty_by_day_witness :
    (analyzePlanFit noDayReport none).recommendation = PlanRec.pro ∧
    (analyzePlanFit noDayReport none).confidence = Confidence.low ∧
    (analyzePlanFit noDayReport none).peakDate = "" :=
  have h := c10_empty_by_day noDayReport none rfl
  ⟨h.2.2.2.2.2.2.2.1, h.2.2.2.2.2.2.2.2, h.2.1⟩

/-! ## Claim C7 -/

/-- C7 (confirmed): the line parser is total (never throws) and yields no
event exactly when the line is blank, not valid JSON, or valid JSON without
a nested message.usage payload; unusable lines leave the scan state
untouched.  In particular the line "not json" (an invalid-JSON line) and
the line consisting of an object with an empty message both yield no
event. -/
theorem c7_parser_rejects (l : RawLine) :
    (lineUsable l = false ↔
      (l = RawLine.blank ∨ l = RawLine.invalid ∨
       ∃ m, l = RawLine.json m ∧
         (m.message = none ∨ ∃ mb, m.message = some mb ∧ mb.usage = none))) ∧
    (∀ (sd ed : Option Int) (st : ScanState),
       lineUsable l = false → processLine sd ed st l = st) ∧
    lineUsable RawLine.invalid = false ∧
    lineUsable (RawLine.json ⟨some ⟨none, none⟩, none⟩) = false := by
  refine ⟨?_, ?_, rfl, rfl⟩
  · cases l with
    | blank => simp [lineUsable, parseJsonlLine]
    | invalid => simp [lineUsable, parseJsonlLine]
    | json m =>
      cases hm : m.message with
      | none => simp [lineUsable, parseJsonlLine, hm]
      | some mb =>
        cases hu : mb.usage with
        | none => simp [lineUsable, parseJsonlLine, hm, hu]
        | some u => simp [lineUsable, parseJsonlLine, hm, hu]
  · intro sd ed st h
    cases l with
    | blank => rfl
    | invalid => rfl
    | json m =>
      cases hm : m.message with
      | none => simp [processLine, parseJsonlLine, hm]
      | some mb =>
        cases hu : mb.usage with
        | none => simp [processLine, parseJsonlLine, hm, hu]
        | some u => simp [lineUsable, parseJsonlLine, hm, hu] at h

/-- C7 witness: the state-preservation clause applied to the invalid-JSON
line on the empty scan state. -/
theorem c7_parser_rejects_witness :
    processLine none none ⟨0, 0, 0, [], 0, []⟩ RawLine.invalid = ⟨0, 0, 0, [], 0, []⟩ :=
  (c7_parser_rejects RawLine.invalid).2.1 none none ⟨0, 0, 0, [], 0, []⟩ rfl

/-! ## Claim C2 -/

/-- The code's negated strict comparisons coincide with the inclusive-bounds
window predicate. -/
lemma isWithinDateRange_eq (t : Timestamp) (sd ed : Option Int) :
    isWithinDateRange t sd ed =
      (sd.all (fun s => s ≤ t.time) && ed.all (fun e => t.time ≤ e)) := by
  cases sd with
  | none =>
    cases ed with
    | none => rfl
    | some e =>
      by_cases h : e < t.time
      · simp [isWithinDateRange, h, show ¬ t.time ≤ e by omega]
      · simp [isWithinDateRange, h, show t.time ≤ e by omega]
  | some s =>
    cases ed with
    | none =>
      by_cases h : t.time < s
      · simp [isWithinDateRange, h, show ¬ s ≤ t.time by omega]
      · simp [isWithinDateRange, h, show s ≤ t.time by omega]
    | some e =>
      by_cases h : t.time < s
      · simp [isWithinDateRange, h, show ¬ s ≤ t.time by omega]
      · by_cases h2 : e < t.time
        · simp [isWithinDateRange, h, h2, show s ≤ t.time by omega,
            show ¬ t.time ≤ e by omega]
        · simp [isWithinDateRange, h, h2, show s ≤ t.time by omega,
            show t.time ≤ e by omega]

/-- On a timestamped event the claim-side keep predicate is exactly the
code's window test. -/
lemma keepSpec_some (t : Timestamp) (sd ed : Option Int) :
    keepSpec (some t) sd ed = isWithinDateRange t sd ed := by
  rw [isWithinDateRange_eq]
  rfl

/-- C2 (confirmed): a usable event is retained (counted) iff it has no
timestamp, or every present window bound admits its timestamp inclusively;
the window test itself is the inclusive conjunction of the two optional
bounds. -/
theorem c2_window_filter :
    (∀ (t : Timestamp) (sd ed : Option Int),
       isWithinDateRange t sd ed =
         (sd.all (fun s => s ≤ t.time) && ed.all (fun e => t.time ≤ e))) ∧
    (∀ (sd ed : Option Int) (st : ScanState) (m : ClaudeMessage)
       (mb : MessageBody) (u : UsageFields),
       m.message = some mb → mb.usage = some u →
       (processLine sd ed st (RawLine.json m)).messagesCount =
         st.messagesCount + (if keepSpec m.timestamp sd ed then 1 else 0)) ∧
    (∀ (sd ed : Option Int), keepSpec none sd ed = true) := by
  refine ⟨isWithinDateRange_eq, ?_, fun sd ed => rfl⟩
  intro sd ed st m mb u hm hu
  cases ht : m.timestamp with
  | none =>
    simp [processLine, parseJsonlLine, hm, hu, ht, keepSpec]
  | some t =>
    cases hw : isWithinDateRange t sd ed with
    | false =>
      simp [processLine, parseJsonlLine, hm, hu, ht, keepSpec_some, hw]
    | true =>
      simp [processLine, parseJsonlLine, hm, hu, ht, keepSpec_some, hw]

/-- C2 witness: a concrete timestamped event inside the window [0, 200] is
counted once. -/
theorem c2_window_filter_witness :
    (processLine (some 0) (some 200) ⟨0, 0, 0, [], 0, []⟩
        (RawLine.json ⟨some ⟨some ⟨some 10, some 2, none, none⟩, some "m1"⟩,
          some ⟨"2024-01-02", 100⟩⟩)).messagesCount =
      0 + (if keepSpec (some ⟨"2024-01-02", 100⟩) (some 0) (some 200) then 1 else 0) :=
  c2_window_filter.2.1 (some 0) (some 200) ⟨0, 0, 0, [], 0, []⟩
    ⟨some ⟨some ⟨some 10, some 2, none, none⟩, some "m1"⟩, some ⟨"2024-01-02", 100⟩⟩
    ⟨some ⟨some 10, some 2, none, none⟩, some "m1"⟩
    ⟨some 10, some 2, none, none⟩ rfl rfl

/-! ## Claim C8 -/

/-- Folding the session files counts every file as a session and collects
exactly the read-error messages — and only under the verbose option. -/
lemma foldl_processFile (opts : ScanOptions) (files : List SessionFile) :
    ∀ (acc : ScanAcc),
      (files.foldl (processFile opts) acc).errors =
        acc.errors ++ (if opts.verbose then files.filterMap readErrorMsg else []) ∧
      (files.foldl (processFile opts) acc).sessions = acc.sessions + files.length := by
  induction files with
  | nil => intro acc; simp
  | cons f t ih =>
    intro acc
    simp only [List.foldl_cons, List.length_cons]
    obtain ⟨ih1, ih2⟩ := ih (processFile opts acc f)
    constructor
    · rw [ih1]
      cases hc : f.content with
      | error e =>
        by_cases hv : opts.verbose <;>
          simp [processFile, hc, hv, readErrorMsg, List.filterMap_cons]
      | ok lines =>
        by_cases hv : opts.verbose <;>
          simp [processFile, hc, hv, readErrorMsg, List.filterMap_cons]
    · rw [ih2]
      cases hc : f.content with
      | error e =>
        by_cases hv : opts.verbose <;> simp [processFile, hc, hv] <;> omega
      | ok lines => simp [processFile, hc]; omega

/-- C8, counterexample: with the verbose option off, a session file whose
read fails with an I/O error leaves the returned error list empty — the
error is not collected, contrary to the claim — although the scan does
continue (the file is still counted as a session). -/
theorem c8_counterexample :
    (scanClaudeUsage ⟨none, none, false⟩ true [failingFile]).2 = [] ∧
    (scanClaudeUsage ⟨none, none, false⟩ true [failingFile]).1.usage.sessions.count = 1 ∧
    failingFile.content = Except.error "EACCES" := by
  refine ⟨?_, ?_, rfl⟩ <;> rfl

/-- C8 (amended): an I/O error on one session file never aborts the scan —
every file is still counted as a session and later files are processed —
but the error message (with the file path) is collected into the returned
error list only when the verbose option is set; with verbose off it is
silently dropped.  A missing root projects directory yields the all-zero
report together with exactly one descriptive error. -/
theorem c8_error_handling (opts : ScanOptions) (files : List SessionFile) :
    scanClaudeUsage opts false files =
      (emptyScanReport, ["Claude projects directory not found: ~/.claude/projects"]) ∧
    (scanClaudeUsage opts true files).2 =
      (if opts.verbose then files.filterMap readErrorMsg else []) ∧
    (scanClaudeUsage opts true files).1.usage.sessions.count = files.length := by
  refine ⟨rfl, ?_, ?_⟩
  · have h := (foldl_processFile opts files ⟨⟨0, 0, 0, [], 0, []⟩, 0, []⟩).1
    simp only [scanClaudeUsage, Bool.not_true]
    simpa using h
  · have h := (foldl_processFile opts files ⟨⟨0, 0, 0, [], 0, []⟩, 0, []⟩).2
    simp only [scanClaudeUsage, Bool.not_true]
    simpa using h

/-! ## Claim C1 -/

/-- Bumping a model entry adds its input tokens to the by-model input sum. -/
lemma bumpModel_sumInput (m : String) (i o : Nat) :
    ∀ (l : List (String × ModelTokens)),
      modelSumInput (bumpModel l m i o) = modelSumInput l + i := by
  intro l
  induction l with
  | nil => simp [bumpModel, modelSumInput]
  | cons e t ih =>
    by_cases h : e.1 == m <;>
      simp [bumpModel, h, modelSumInput] at ih ⊢ <;> omega

/-- Bumping a model entry adds its output tokens to the by-model output
sum. -/
lemma bumpModel_sumOutput (m : String) (i o : Nat) :
    ∀ (l : List (String × ModelTokens)),
      modelSumOutput (bumpModel l m i o) = modelSumOutput l + o := by
  intro l
  induction l with
  | nil => simp [bumpModel, modelSumOutput]
  | cons e t ih =>
    by_cases h : e.1 == m <;>
      simp [bumpModel, h, modelSumOutput] at ih ⊢ <;> omega

/-- Bumping a day bucket adds the input tokens to the day-map input sum. -/
lemma bumpDay_sumInput (d : String) (i o : Nat) :
    ∀ (l : List (String × DayData)),
      daySumInput (bumpDay l d i o) = daySumInput l + i := by
  intro l
  induction l with
  | nil => simp [bumpDay, daySumInput]
  | cons e t ih =>
    by_cases h : e.1 == d <;>
      simp [bumpDay, h, daySumInput] at ih ⊢ <;> omega

/-- Bumping a day bucket adds the output tokens to the day-map output sum. -/
lemma bumpDay_sumOutput (d : String) (i o : Nat) :
    ∀ (l : List (String × DayData)),
      daySumOutput (bumpDay l d i o) = daySumOutput l + o := by
  intro l
  induction l with
  | nil => simp [bumpDay, daySumOutput]
  | cons e t ih =>
    by_cases h : e.1 == d <;>
      simp [bumpDay, h, daySumOutput] at ih ⊢ <;> omega

/-- Bumping a day bucket increments the day-map count sum by one. -/
lemma bumpDay_sumCount (d : String) (i o : Nat) :
    ∀ (l : List (String × DayData)),
      daySumCount (bumpDay l d i o) = daySumCount l + 1 := by
  intro l
  induction l with
  | nil => simp [bumpDay, daySumCount]
  | cons e t ih =>
    by_cases h : e.1 == d <;>
      simp [bumpDay, h, daySumCount] at ih ⊢ <;> omega

/-- Bumping a day bucket either reuses an existing key or appends the new
key at the end. -/
lemma bumpDay_keys (d : String) (i o : Nat) :
    ∀ (l : List (String × DayData)),
      (bumpDay l d i o).map Prod.fst =
        if d ∈ l.map Prod.fst then l.map Prod.fst else l.map Prod.fst ++ [d] := by
  intro l
  induction l with
  | nil => simp [bumpDay]
  | cons e t ih =>
    by_cases h : e.1 == d
    · have hde : e.1 = d := by simpa using h
      simp only [bumpDay, List.map_cons]
      rw [if_pos h, List.map_cons, if_pos (List.mem_cons.2 (Or.inl hde.symm))]
    · have hde : e.1 ≠ d := by simpa using h
      by_cases hm : d ∈ t.map Prod.fst
      · have hmem : d ∈ (e :: t).map Prod.fst := by simp [hm]
        simp [bumpDay, h, hmem, ih, hm]
      · have hmem : d ∉ (e :: t).map Prod.fst := by simp [hm, Ne.symm hde]
        simp [bumpDay, h, hmem, ih, hm, Ne.symm hde]

/-- Bumping a day bucket keeps the day-map keys distinct. -/
lemma bumpDay_nodup (d : String) (i o : Nat) (l : List (String × DayData))
    (h : (l.map Prod.fst).Nodup) : ((bumpDay l d i o).map Prod.fst).Nodup := by
  rw [bumpDay_keys]
  by_cases hm : d ∈ l.map Prod.fst
  · simpa [hm] using h
  · simp only [hm, if_false]
    rw [List.nodup_append]
    exact ⟨h, List.nodup_singleton d, by simpa using hm⟩

/-- Processing one line preserves the by-model invariant and day-key
distinctness. -/
lemma invA_processLine (sd ed : Option Int) (l : RawLine) (st : ScanState)
    (h : InvA st) : InvA (processLine sd ed st l) := by
  cases l with
  | blank => exact h
  | invalid => exact h
  | json m =>
    cases hm : m.message with
    | none => simpa [processLine, parseJsonlLine, hm] using h
    | some mb =>
      cases hu : mb.usage with
      | none => simpa [processLine, parseJsonlLine, hm, hu] using h
      | some u =>
        obtain ⟨h1, h2, h3⟩ := h
        cases ht : m.timestamp with
        | none =>
          refine ⟨?_, ?_, ?_⟩
          · simp [processLine, parseJsonlLine, hm, hu, ht, bumpModel_sumInput, h1]
          · simp [processLine, parseJsonlLine, hm, hu, ht, bumpModel_sumOutput, h2]
          · simpa [processLine, parseJsonlLine, hm, hu, ht] using h3
        | some t =>
          by_cases hw : isWithinDateRange t sd ed
          · refine ⟨?_, ?_, ?_⟩
            · simp [processLine, parseJsonlLine, hm, hu, ht, hw, bumpModel_sumInput, h1]
            · simp [processLine, parseJsonlLine, hm, hu, ht, hw, bumpModel_sumOutput, h2]
            · simpa [processLine, parseJsonlLine, hm, hu, ht, hw] using
                bumpDay_nodup t.date (u.input_tokens.getD 0) (u.output_tokens.getD 0)
                  st.dayMap h3
          · simpa [processLine, parseJsonlLine, hm, hu, ht, hw] using ⟨h1, h2, h3⟩

/-- Processing a good line (usable implies timestamped) preserves the
day-map sum invariant. -/
lemma invB_processLine (sd ed : Option Int) (l : RawLine) (st : ScanState)
    (hg : GoodLine l) (h : InvB st) : InvB (processLine sd ed st l) := by
  cases l with
  | blank => exact h
  | invalid => exact h
  | json m =>
    cases hm : m.message with
    | none => simpa [processLine, parseJsonlLine, hm] using h
    | some mb =>
      cases hu : mb.usage with
      | none => simpa [processLine, parseJsonlLine, hm, hu] using h
      | some u =>
        obtain ⟨h1, h2, h3⟩ := h
        cases ht : m.timestamp with
        | none =>
          have hsome : m.timestamp.isSome = true := hg m rfl (by simp [hm, hu])
          rw [ht] at hsome
          simp at hsome
        | some t =>
          by_cases hw : isWithinDateRange t sd ed
          · refine ⟨?_, ?_, ?_⟩
            · simp [processLine, parseJsonlLine, hm, hu, ht, hw, bumpDay_sumInput, h1]
            · simp [processLine, parseJsonlLine, hm, hu, ht, hw, bumpDay_sumOutput, h2]
            · simp [processLine, parseJsonlLine, hm, hu, ht, hw, bumpDay_sumCount, h3]
          · simpa [processLine, parseJsonlLine, hm, hu, ht, hw] using ⟨h1, h2, h3⟩

/-- Folding a file's lines preserves the by-model invariant. -/
lemma invA_lines (sd ed : Option Int) (lines : List RawLine) :
    ∀ (st : ScanState), InvA st → InvA (lines.foldl (processLine sd ed) st) := by
  induction lines with
  | nil => intro st h; exact h
  | cons l t ih =>
    intro st h
    exact ih _ (invA_processLine sd ed l st h)

/-- Folding a file's lines preserves the day-map invariant when every line
is good. -/
lemma invB_lines (sd ed : Option Int) (lines : List RawLine)
    (hg : ∀ l ∈ lines, GoodLine l) :
    ∀ (st : ScanState), InvB st → InvB (lines.foldl (processLine sd ed) st) := by
  induction lines with
  | nil => intro st h; exact h
  | cons l t ih =>
    intro st h
    exact ih (fun x hx => hg x (List.mem_cons_of_mem l hx)) _
      (invB_processLine sd ed l st (hg l (List.mem_cons_self _ _)) h)

/-- Folding the session files preserves the by-model invariant. -/
lemma invA_files (opts : ScanOptions) (files : List SessionFile) :
    ∀ (acc : ScanAcc), InvA acc.st → InvA ((files.foldl (processFile opts) acc).st) := by
  induction files with
  | nil => intro acc h; exact h
  | cons f t ih =>
    intro acc h
    refine ih _ ?_
    cases hc : f.content with
    | error e => by_cases hv : opts.verbose <;> simpa [processFile, hc, hv] using h
    | ok lines => simpa [processFile, hc] using invA_lines opts.startDate opts.endDate lines _ h

/-- Folding the session files preserves the day-map invariant when every
readable line is good. -/
lemma invB_files (opts : ScanOptions) (files : List SessionFile)
    (hg : ∀ f ∈ files, ∀ lines, f.content = Except.ok lines → ∀ l ∈ lines, GoodLine l) :
    ∀ (acc : ScanAcc), InvB acc.st → InvB ((files.foldl (processFile opts) acc).st) := by
  induction files with
  | nil => intro acc h; exact h
  | cons f t ih =>
    intro acc h
    refine ih (fun x hx => hg x (List.mem_cons_of_mem f hx)) _ ?_
    cases hc : f.content with
    | error e => by_cases hv : opts.verbose <;> simpa [processFile, hc, hv] using h
    | ok lines =>
      simpa [processFile, hc] using
        invB_lines opts.startDate opts.endDate lines
          (hg f (List.mem_cons_self _ _) lines hc) _ h

/-- The final sort is a permutation of the day buckets. -/
lemma sortedByDay_perm (dayMap : List (String × DayData)) :
    (sortedByDay dayMap).Perm
      (dayMap.map (fun e => DayEntry.mk e.1 e.2.count e.2.input e.2.output)) :=
  List.mergeSort_perm _ _

/-- Sorting the day buckets preserves the input-token sum. -/
lemma sortedByDay_sumInput (dayMap : List (String × DayData)) :
    byDaySumInput (sortedByDay dayMap) = daySumInput dayMap := by
  unfold byDaySumInput daySumInput
  rw [List.Perm.sum_eq ((sortedByDay_perm dayMap).map (fun d => d.input))]
  rw [List.map_map]
  rfl

/-- Sorting the day buckets preserves the output-token sum. -/
lemma sortedByDay_sumOutput (dayMap : List (String × DayData)) :
    byDaySumOutput (sortedByDay dayMap) = daySumOutput dayMap := by
  unfold byDaySumOutput daySumOutput
  rw [List.Perm.sum_eq ((sortedByDay_perm dayMap).map (fun d => d.output))]
  rw [List.map_map]
  rfl

/-- Sorting the day buckets preserves the message-count sum. -/
lemma sortedByDay_sumCount (dayMap : List (String × DayData)) :
    byDaySumCount (sortedByDay dayMap) = daySumCount dayMap := by
  unfold byDaySumCount daySumCount
  rw [List.Perm.sum_eq ((sortedByDay_perm dayMap).map (fun d => d.count))]
  rw [List.map_map]
  rfl

/-- With distinct day keys, the sorted `by_day` array is strictly
increasing by date string. -/
lemma sortedByDay_strict (dayMap : List (String × DayData))
    (h : (dayMap.map Prod.fst).Nodup) :
    (sortedByDay dayMap).Pairwise (fun a b => a.date < b.date) := by
  have hsor : (sortedByDay dayMap).Pairwise (fun a b => a.date ≤ b.date) := by
    have h0 := @List.sorted_mergeSort DayEntry
      (fun a b : DayEntry => decide (a.date ≤ b.date))
      (fun a b c hab hbc => by
        simp only [decide_eq_true_eq] at hab hbc ⊢
        exact le_trans hab hbc)
      (fun a b => by
        simpa [Bool.or_eq_true, decide_eq_true_eq] using le_total a.date b.date)
      (dayMap.map (fun e => DayEntry.mk e.1 e.2.count e.2.input e.2.output))
    exact h0.imp (fun hab => by simpa using hab)
  have hnodup : ((sortedByDay dayMap).map (fun d => d.date)).Nodup := by
    have hp : ((sortedByDay dayMap).map (fun d => d.date)).Perm (dayMap.map Prod.fst) := by
      have h1 := (sortedByDay_perm dayMap).map (fun d => d.date)
      simpa [List.map_map, Function.comp] using h1
    exact hp.nodup_iff.2 h
  have hne : (sortedByDay dayMap).Pairwise (fun a b => a.date ≠ b.date) :=
    List.pairwise_map.1 hnodup
  exact (hsor.and hne).imp (fun hab => lt_of_le_of_ne hab.1 hab.2)

/-- C1, counterexample: a scan over one file holding a single usable record
with 5 input tokens and no timestamp retains the event in the totals
(input 5, one message) but produces no day bucket, so the `by_day` sums do
not equal the totals. -/
theorem c1_counterexample :
    (scanClaudeUsage ⟨none, none, false⟩ true
        [⟨"s.jsonl", Except.ok [noTimestampLine]⟩]).1.usage.tokens.input = 5 ∧
    byDaySumInput ((scanClaudeUsage ⟨none, none, false⟩ true
        [⟨"s.jsonl", Except.ok [noTimestampLine]⟩]).1.usage.messages.by_day) = 0 ∧
    (scanClaudeUsage ⟨none, none, false⟩ true
        [⟨"s.jsonl", Except.ok [noTimestampLine]⟩]).1.usage.messages.count = 1 ∧
    byDaySumCount ((scanClaudeUsage ⟨none, none, false⟩ true
        [⟨"s.jsonl", Except.ok [noTimestampLine]⟩]).1.usage.messages.by_day) = 0 ∧
    (5 : Nat) ≠ 0 ∧ (1 : Nat) ≠ 0 := by
  have hday : (scanClaudeUsage ⟨none, none, false⟩ true
      [⟨"s.jsonl", Except.ok [noTimestampLine]⟩]).1.usage.messages.by_day = [] := by
    show sortedByDay [] = []
    simp [sortedByDay]
  refine ⟨rfl, ?_, rfl, ?_, by omega, by omega⟩ <;> rw [hday] <;> rfl

/-- C1 (amended): the token totals always equal the `by_model` sums; the
`by_day` sums equal the totals and the message count whenever every usable
retained record carries a timestamp (events without timestamps count toward
the totals but produce no day bucket); and `by_day` is always strictly
increasing by date string, one entry per distinct date. -/
theorem c1_report_invariants (opts : ScanOptions) (rootExists : Bool)
    (files : List SessionFile) :
    ((scanClaudeUsage opts rootExists files).1.usage.tokens.input =
        modelSumInput (scanClaudeUsage opts rootExists files).1.usage.tokens.by_model ∧
     (scanClaudeUsage opts rootExists files).1.usage.tokens.output =
        modelSumOutput (scanClaudeUsage opts rootExists files).1.usage.tokens.by_model) ∧
    ((∀ f ∈ files, ∀ lines, f.content = Except.ok lines → ∀ l ∈ lines, GoodLine l) →
      ((scanClaudeUsage opts rootExists files).1.usage.tokens.input =
          byDaySumInput (scanClaudeUsage opts rootExists files).1.usage.messages.by_day ∧
       (scanClaudeUsage opts rootExists files).1.usage.tokens.output =
          byDaySumOutput (scanClaudeUsage opts rootExists files).1.usage.messages.by_day ∧
       (scanClaudeUsage opts rootExists files).1.usage.messages.count =
          byDaySumCount (scanClaudeUsage opts rootExists files).1.usage.messages.by_day)) ∧
    (scanClaudeUsage opts rootExists files).1.usage.messages.by_day.Pairwise
      (fun a b => a.date < b.date) := by
  cases rootExists with
  | false =>
    exact ⟨⟨rfl, rfl⟩, fun _ => ⟨rfl, rfl, rfl⟩, List.Pairwise.nil⟩
  | true =>
    have hA : InvA ((files.foldl (processFile opts) ⟨⟨0, 0, 0, [], 0, []⟩, 0, []⟩).st) :=
      invA_files opts files ⟨⟨0, 0, 0, [], 0, []⟩, 0, []⟩ ⟨rfl, rfl, List.Pairwise.nil⟩
    obtain ⟨hA1, hA2, hA3⟩ := hA
    refine ⟨⟨hA1, hA2⟩, ?_, ?_⟩
    · intro hg
      have hB : InvB ((files.foldl (processFile opts) ⟨⟨0, 0, 0, [], 0, []⟩, 0, []⟩).st) :=
        invB_files opts files hg ⟨⟨0, 0, 0, [], 0, []⟩, 0, []⟩ ⟨rfl, rfl, rfl⟩
      obtain ⟨hB1, hB2, hB3⟩ := hB
      refine ⟨?_, ?_, ?_⟩
      · exact (sortedByDay_sumInput _).symm ▸ hB1
      · exact (sortedByDay_sumOutput _).symm ▸ hB2
      · exact (sortedByDay_sumCount _).symm ▸ hB3
    · exact sortedByDay_strict _ hA3

/-- C1 witness: on a one-file scan whose single record is timestamped, the
amended theorem yields equal total and by-day input sums. -/
theorem c1_report_invariants_witness :
    (scanClaudeUsage ⟨none, none, false⟩ true [simpleFile]).1.usage.tokens.input =
      byDaySumInput ((scanClaudeUsage ⟨none, none, false⟩ true
        [simpleFile]).1.usage.messages.by_day) := by
  have hg : ∀ f ∈ [simpleFile], ∀ lines, f.content = Except.ok lines →
      ∀ l ∈ lines, GoodLine l := by
    intro f hf lines hl l hline
    have hf' : f = simpleFile := by simpa using hf
    subst hf'
    have hlines : [RawLine.json ⟨some ⟨some ⟨some 10, some 2, none, none⟩, some "m1"⟩,
        some ⟨"2024-01-02", 100⟩⟩] = lines := Except.ok.inj hl
    rw [← hlines] at hline
    have hl' : l = RawLine.json ⟨some ⟨some ⟨some 10, some 2, none, none⟩, some "m1"⟩,
        some ⟨"2024-01-02", 100⟩⟩ := by simpa using hline
    subst hl'
    intro m hmj hus
    obtain rfl : (⟨some ⟨some ⟨some 10, some 2, none, none⟩, some "m1"⟩,
        some ⟨"2024-01-02", 100⟩⟩ : ClaudeMessage) = m := RawLine.json.inj hmj
    rfl
  exact ((c1_report_invariants ⟨none, none, false⟩ true [simpleFile]).2.1 hg).1

end LLMUsage
